import Mathlib

/-!
zxylog: leveled logging with a rotating log file.

A shallow embedding of `log.go` (the rotating log writer) and `core/manager.go`
(the registry of writers), followed by theorems about severity filtering, the
rotation decision, the naming of new log files and the registry.

Conventions of the embedding.

* Go strings are Lean strings; byte indexing is only ever used by the source to
  look for the ASCII characters `/` and `\`, which are single bytes of UTF-8 and
  never part of a longer encoded character, so characters and bytes agree there.
* `time.Time` is represented by its civil fields in the local zone.
* The operating system's file tree is explicit state: a map from resolved paths
  (lists of components) to nodes.  Every operation that touches the disk takes
  the tree and returns the new one.
* `for { ... }` in `newLogFile` is a loop bounded by fuel; running out of fuel is
  `none` and stands for a loop that has not finished yet.
* The read/write lock and the goroutine started by `NewZxyLog` are outside the
  sequential embedding.
-/

namespace Zxylog

/-! ## Levels, colours, styles -/

/-- Log level `LEVEL`, in the order of the `iota` block. -/
inductive LEVEL where
  | ALL
  | DEBUG
  | INFO
  | WARN
  | ERROR
  | FATAL
  deriving DecidableEq, Repr

/-- Integer value of a level (`ALL = 0`, ..., `FATAL = 5`). -/
def LEVEL.toNat : LEVEL → Nat
  | .ALL => 0
  | .DEBUG => 1
  | .INFO => 2
  | .WARN => 3
  | .ERROR => 4
  | .FATAL => 5

instance : LE LEVEL := ⟨fun a b => a.toNat ≤ b.toNat⟩

instance : LT LEVEL := ⟨fun a b => a.toNat < b.toNat⟩

instance (a b : LEVEL) : Decidable (a ≤ b) := inferInstanceAs (Decidable (a.toNat ≤ b.toNat))

instance (a b : LEVEL) : Decidable (a < b) := inferInstanceAs (Decidable (a.toNat < b.toNat))

abbrev COLOR := Int

abbrev STYLE := Int

def CLR_BLACK : COLOR := 30
def CLR_RED : COLOR := 31
def CLR_GREEN : COLOR := 32
def CLR_YELLOW : COLOR := 33
def CLR_BLUE : COLOR := 34
def CLR_PURPLE : COLOR := 35
def CLR_CYAN : COLOR := 36
def CLR_WHITE : COLOR := 37
def CLR_DEFAULT : COLOR := 39

def STYLE_DEFAULT : STYLE := 0
def STYLE_HIGHLIGHT : STYLE := 1
def SYTLE_UNDERLINE : STYLE := 4
def SYTLE_BLINK : STYLE := 5
def STYLE_INVERSE : STYLE := 7
def STYLE_INVISIBLE : STYLE := 8

/-- Flags of the file logger: `log.Ldate | log.Lmicroseconds | log.Lshortfile` = 1 + 4 + 16. -/
def logFlags : Nat := 21

/-- Flags of the console logger. -/
def logConsoleFlag : Nat := 0

/-- Largest size of one log file, in bytes. -/
def logMaxSize : Nat := 512 * 1024 * 1024

/-! ## Formatting (`fmt`) -/

/-- The verb `%d` for an integer. -/
def fmtInt (n : Int) : String :=
  if n < 0 then "-" ++ toString n.natAbs else toString n.natAbs

/-- The verb `%0<w>d`: zeros are inserted between the sign and the digits until
the whole field is `w` characters wide. -/
def fmtPad (w : Nat) (n : Int) : String :=
  let digits := toString n.natAbs
  if n < 0 then
    "-" ++ String.mk (List.replicate (w - 1 - digits.length) '0') ++ digits
  else
    String.mk (List.replicate (w - digits.length) '0') ++ digits

/-- Operands of `fmt.Sprintln`, already rendered: they are joined by single
spaces and a newline is appended. -/
def Sprintln (args : List String) : String :=
  String.intercalate " " args ++ "\n"

/-- The call `strings.TrimRight(s, "\n")`: every trailing newline is removed. -/
def trimRightNewline (s : String) : String :=
  String.mk (s.toList.reverse.dropWhile (fun c => c == '\n')).reverse

/-! ## Time -/

/-- Civil fields of a `time.Time` in the local zone. -/
structure Time where
  year : Int
  month : Nat
  day : Nat
  hour : Nat
  minute : Nat
  second : Nat
  nanosecond : Nat
  deriving DecidableEq, Repr

/-- Leap years of the Gregorian calendar. -/
def isLeap (y : Int) : Bool :=
  y % 4 == 0 && (y % 100 != 0 || y % 400 == 0)

/-- Number of days of a common year that precede the first day of month `m`. -/
def daysBefore : Nat → Nat
  | 1 => 0
  | 2 => 31
  | 3 => 59
  | 4 => 90
  | 5 => 120
  | 6 => 151
  | 7 => 181
  | 8 => 212
  | 9 => 243
  | 10 => 273
  | 11 => 304
  | 12 => 334
  | _ => 0

/-- The method `Time.YearDay`: the day of the year, 1..365 (1..366 in leap years). -/
def Time.YearDay (t : Time) : Nat :=
  daysBefore t.month + t.day + (if isLeap t.year && decide (2 < t.month) then 1 else 0)

/-! ## The file tree -/

/-- A node of the file tree: a regular file with its bytes, or a directory with
the size `Stat` reports for it. -/
inductive Node where
  | file (content : List UInt8)
  | dir (size : Nat)
  deriving DecidableEq

/-- The file tree: resolved path to node. The root (empty list) is always a directory. -/
abbrev FS := List String → Option Node

/-- Splits a list of characters at every `/`. -/
def splitSlash : List Char → List Char → List (List Char)
  | [], cur => [cur.reverse]
  | c :: cs, cur => if c = '/' then cur.reverse :: splitSlash cs [] else splitSlash cs (c :: cur)

/-- Path resolution: the components between separators, empty ones dropped, so
that repeated and trailing separators do not matter. Paths are resolved from one
fixed directory; `.` and `..` are not interpreted. -/
def resolve (p : String) : List String :=
  ((splitSlash p.toList []).filter (fun c => !c.isEmpty)).map String.mk

/-- What `os.Stat` finds: `none` is an error. -/
def stat (fs : FS) (p : String) : Option Node :=
  if p = "" then none
  else if resolve p = [] then some (Node.dir 4096)
  else fs (resolve p)

/-- Size reported by `FileInfo.Size`. -/
def Node.size : Node → Nat
  | .file c => c.length
  | .dir s => s

/-- The method `FileInfo.IsDir`. -/
def Node.isDir : Node → Bool
  | .file _ => false
  | .dir _ => true

/-- Tree with node `n` at key `k`. -/
def FS.set (fs : FS) (k : List String) (n : Node) : FS :=
  fun q => if q = k then some n else fs q

/-- Worker of `os.MkdirAll`: walks down from the directory `pre`, creating each
missing component and stopping at a component that is a regular file. -/
def mkdirFrom (fs : FS) (pre : List String) : List String → FS
  | [] => fs
  | c :: rest =>
    match fs (pre ++ [c]) with
    | some (Node.file _) => fs
    | some (Node.dir _) => mkdirFrom fs (pre ++ [c]) rest
    | none => mkdirFrom (fs.set (pre ++ [c]) (Node.dir 4096)) (pre ++ [c]) rest

/-- The call `os.MkdirAll(p, os.ModePerm)`, its error ignored as the source does. -/
def MkdirAll (fs : FS) (p : String) : FS :=
  mkdirFrom fs [] (resolve p)

/-- The call `os.OpenFile(p, os.O_RDWR|os.O_APPEND|os.O_CREATE, os.ModePerm)`.
An existing regular file is opened as it is (no truncation); a missing file is
created empty when its parent is a directory; everything else is an error
(`none`). The open file is identified by the name it was opened under. -/
def OpenFile (fs : FS) (p : String) : Option String × FS :=
  if resolve p = [] then (none, fs)
  else
    match fs (resolve p) with
    | some (Node.file _) => (some p, fs)
    | some (Node.dir _) => (none, fs)
    | none =>
      if (resolve p).dropLast = [] then (some p, fs.set (resolve p) (Node.file []))
      else
        match fs (resolve p).dropLast with
        | some (Node.dir _) => (some p, fs.set (resolve p) (Node.file []))
        | _ => (none, fs)

/-- Tells whether a regular file exists at `file` (a directory does not count). -/
def isFileExist (fs : FS) (file : String) : Bool :=
  match stat fs file with
  | none => false
  | some fileInfo => if fileInfo.isDir then false else true

/-! ## The writer -/

/-- A `log.Logger` made by `log.New(out, prefix, flag)`; `out` is the open file
it writes to (`none` for a nil file). -/
structure Logger where
  out : Option String
  pfx : String
  flag : Nat
  deriving DecidableEq

/-- The struct `ZxyLog` without its lock. Nil pointers are `none`. -/
structure ZxyLog where
  logDir : String
  logFilename : String
  timestamp : Time
  logFilePath : String
  logFile : Option String
  logger : Option Logger
  logConsole : Bool
  logConsolePrefix : String
  logLevel : LEVEL
  deriving DecidableEq

/-! ## Rotation -/

/-- Has the day changed since the file was created? -/
def ZxyLog.checkFileDate (z : ZxyLog) (now : Time) : Bool :=
  if now.YearDay ≠ z.timestamp.YearDay then true else false

/-- Has the file reached the size limit? -/
def ZxyLog.checkFileSize (z : ZxyLog) (fs : FS) : Bool :=
  match stat fs z.logFilePath with
  | none => false
  | some fileInfo => if fileInfo.size ≥ logMaxSize then true else false

/-- Is the file missing? -/
def ZxyLog.checkFileExist (z : ZxyLog) (fs : FS) : Bool :=
  if !isFileExist fs z.logFilePath then true else false

/-- Must the log file be replaced: day changed, size limit reached, or file gone.
Returns the answer and the file tree (the last branch recreates `logDir`). -/
def ZxyLog.isMustRename (z : ZxyLog) (fs : FS) (now : Time) : Bool × FS :=
  if z.checkFileDate now then (true, fs)
  else if z.checkFileSize fs then (true, fs)
  else if z.checkFileExist fs then (true, fs)
  else (false, MkdirAll fs z.logDir)

/-- Dated directory of the writer: `Sprintf("%s/%04d-%02d-%02d/", logDir, Year, Month, Day)`. -/
def ZxyLog.dateDir (z : ZxyLog) : String :=
  z.logDir ++ "/" ++ fmtPad 4 z.timestamp.year ++ "-" ++ fmtPad 2 z.timestamp.month
    ++ "-" ++ fmtPad 2 z.timestamp.day ++ "/"

/-- The name without extension: `Sprintf("%s/%s", dir, logFilename)`. -/
def ZxyLog.baseFile (z : ZxyLog) : String :=
  z.dateDir ++ "/" ++ z.logFilename

/-- The candidates `newLogFile` probes: `filename + ".log"` first (index 0), then
`Sprintf("%s_%d.log", filename, n)` for `n = 1, 2, ...`. -/
def candidate (filename : String) : Nat → String
  | 0 => filename ++ ".log"
  | n + 1 => filename ++ "_" ++ fmtInt (n + 1 : Nat) ++ ".log"

/-- The loop of `newLogFile`, started at counter `n`; each unit of fuel pays for
one iteration. -/
def probe (fs : FS) (filename : String) : Nat → Nat → Option String
  | 0, _ => none
  | fuel + 1, n =>
    if !isFileExist fs (candidate filename n) then some (candidate filename n)
    else probe fs filename fuel (n + 1)

/-- Name of the next log file; also creates the dated directory. The counter
`n` is a Go `int`; it is unbounded here, which agrees with the source as long as
fewer than 2^63 suffixed files exist. -/
def ZxyLog.newLogFile (z : ZxyLog) (fs : FS) (fuel : Nat) : Option (String × FS) :=
  let fs1 := MkdirAll fs z.dateDir
  let filename := z.baseFile
  if !isFileExist fs1 (filename ++ ".log") then some (filename ++ ".log", fs1)
  else (probe fs1 filename fuel 1).map (fun fn => (fn, fs1))

/-- Replaces the log file: new timestamp, new name, old file closed, new file
opened (an error of `OpenFile` is ignored and leaves a nil file). -/
def ZxyLog.rename (z : ZxyLog) (fs : FS) (now : Time) (fuel : Nat) : Option (ZxyLog × FS) :=
  let z1 := { z with timestamp := now }
  match z1.newLogFile fs fuel with
  | none => none
  | some (fn, fs1) =>
    let r := OpenFile fs1 fn
    some ({ z1 with logFile := r.1, logger := some ⟨r.1, "", logFlags⟩, logFilePath := fn }, r.2)

/-- One tick of the monitor: replace the file when `isMustRename` says so. The
argument is the pointer the monitor holds (`none` for nil). The clock is read
twice, by `checkFileDate` (`now`) and by `rename` (`now2`). -/
def fileCheck (zxyLog : Option ZxyLog) (fs : FS) (now now2 : Time) (fuel : Nat) :
    Option (Option ZxyLog × FS) :=
  match zxyLog with
  | none => some (none, fs)
  | some z =>
    if (z.isMustRename fs now).1 then
      (z.rename (z.isMustRename fs now).2 now2 fuel).map (fun r => (some r.1, r.2))
    else some (some z, (z.isMustRename fs now).2)

/-! ## Emission -/

/-- Colours a string for the terminal: `Sprintf("%c[%d;%d;%dm%s%c[0m", 0x1B, s, bc+10, fc, str, 0x1B)`. -/
def SprintColor (str : String) (s : STYLE) (fc bc : COLOR) : String :=
  let _fc : Int := fc
  let _bc : Int := bc + 10
  String.singleton (Char.ofNat 0x1B) ++ "[" ++ fmtInt s ++ ";" ++ fmtInt _bc ++ ";" ++ fmtInt _fc
    ++ "m" ++ str ++ String.singleton (Char.ofNat 0x1B) ++ "[0m"

/-- What a call reads from its surroundings: the caller's position given by
`runtime.Caller(2)` and the clock. -/
structure CallEnv where
  file : String
  line : Int
  now : Time

/-- The loop of `console` that shortens the caller's file name: scanning from
index `i` down to 1 for the last `/`. -/
def shortFrom (file : List Char) : Nat → List Char
  | 0 => file
  | i + 1 => if file.get? (i + 1) = some '/' then file.drop (i + 2) else shortFrom file i

/-- File name without its directories, as `console` computes it. -/
def shortFile (file : String) : String :=
  String.mk (shortFrom file.toList (file.toList.length - 1))

/-- The bracketed time stamp of a console line: `[%04d/%02d/%02d_%02d:%02d:%02d.%06d]`. -/
def consoleStamp (now : Time) : String :=
  "[" ++ fmtPad 4 now.year ++ "/" ++ fmtPad 2 now.month ++ "/" ++ fmtPad 2 now.day ++ "_"
    ++ fmtPad 2 now.hour ++ ":" ++ fmtPad 2 now.minute ++ ":" ++ fmtPad 2 now.second ++ "."
    ++ fmtPad 6 (now.nanosecond / 1000 : Nat) ++ "]"

/-- Prints a line on the terminal: the result lists the operands handed to
`log.Println`, nothing when the console is off. -/
def ZxyLog.console (z : ZxyLog) (ll : LEVEL) (args : String) (env : CallEnv) : List String :=
  if z.logConsole then
    let file := shortFile env.file
    let context :=
      if z.logConsolePrefix.length > 0 then
        consoleStamp env.now ++ " @" ++ z.logConsolePrefix ++ " #" ++ file ++ ":"
          ++ fmtInt env.line ++ " " ++ args
      else
        consoleStamp env.now ++ " #" ++ file ++ ":" ++ fmtInt env.line ++ " " ++ args
    match ll with
    | .DEBUG => [SprintColor context STYLE_DEFAULT CLR_DEFAULT CLR_DEFAULT]
    | .INFO => [SprintColor context STYLE_DEFAULT CLR_DEFAULT CLR_DEFAULT]
    | .WARN => [SprintColor context STYLE_DEFAULT CLR_YELLOW CLR_DEFAULT]
    | .ERROR => [SprintColor context STYLE_HIGHLIGHT CLR_RED CLR_DEFAULT]
    | .FATAL => [SprintColor context STYLE_HIGHLIGHT CLR_PURPLE CLR_DEFAULT]
    | _ => [SprintColor context STYLE_DEFAULT CLR_DEFAULT CLR_DEFAULT]
  else []

/-- What a call does to the outside, in order. -/
inductive Event where
  | rlock
  | runlock
  | loggerOutput (l : Logger) (calldepth : Nat) (s : String)
  | println (operands : List String)
  deriving DecidableEq

/-- Message of the run-time panic raised by a call through a nil pointer. -/
def nilDereference : String :=
  "runtime error: invalid memory address or nil pointer dereference"

/-- The body shared by the fifteen emission methods. `bound` is the level the
method compares the writer's level with, `tag` the word put in front of the
message, `ll` the level passed to `console`, `rendered` the message as `fmt`
rendered it. A nil `logger` panics in `Output`; the deferred calls then release
the lock and `catchError` prints the recovered error. -/
def ZxyLog.emit (z : ZxyLog) (bound : LEVEL) (tag : String) (ll : LEVEL) (rendered : String)
    (env : CallEnv) : List Event :=
  if z.logLevel ≤ bound then
    let context := trimRightNewline (tag ++ " " ++ rendered)
    match z.logger with
    | none => [Event.rlock, Event.runlock, Event.println ["err", nilDereference]]
    | some l =>
      [Event.rlock, Event.loggerOutput l 2 context]
        ++ (z.console ll context env).map (fun s => Event.println [s]) ++ [Event.runlock]
  else []

def ZxyLog.Debug (z : ZxyLog) (arg : String) (env : CallEnv) : List Event :=
  z.emit LEVEL.DEBUG "DEBUG" LEVEL.DEBUG (Sprintln [arg]) env

def ZxyLog.Info (z : ZxyLog) (arg : String) (env : CallEnv) : List Event :=
  z.emit LEVEL.INFO "INFO" LEVEL.INFO (Sprintln [arg]) env

def ZxyLog.Warn (z : ZxyLog) (arg : String) (env : CallEnv) : List Event :=
  z.emit LEVEL.WARN "WARN" LEVEL.WARN (Sprintln [arg]) env

def ZxyLog.Error (z : ZxyLog) (arg : String) (env : CallEnv) : List Event :=
  z.emit LEVEL.ERROR "ERROR" LEVEL.ERROR (Sprintln [arg]) env

def ZxyLog.Fatal (z : ZxyLog) (arg : String) (env : CallEnv) : List Event :=
  z.emit LEVEL.FATAL "FATAL" LEVEL.FATAL (Sprintln [arg]) env

/-- The function `fmt.Sprintf`, passed in: format and rendered operands to text. -/
abbrev Formatter := String → List String → String

def ZxyLog.Debugf (z : ZxyLog) (sprintf : Formatter) (format : String) (args : List String)
    (env : CallEnv) : List Event :=
  z.emit LEVEL.DEBUG "DEBUG" LEVEL.DEBUG (sprintf format args) env

def ZxyLog.Infof (z : ZxyLog) (sprintf : Formatter) (format : String) (args : List String)
    (env : CallEnv) : List Event :=
  z.emit LEVEL.INFO "INFO" LEVEL.INFO (sprintf format args) env

def ZxyLog.Warnf (z : ZxyLog) (sprintf : Formatter) (format : String) (args : List String)
    (env : CallEnv) : List Event :=
  z.emit LEVEL.WARN "WARN" LEVEL.WARN (sprintf format args) env

def ZxyLog.Errorf (z : ZxyLog) (sprintf : Formatter) (format : String) (args : List String)
    (env : CallEnv) : List Event :=
  z.emit LEVEL.ERROR "ERROR" LEVEL.ERROR (sprintf format args) env

def ZxyLog.Fatalf (z : ZxyLog) (sprintf : Formatter) (format : String) (args : List String)
    (env : CallEnv) : List Event :=
  z.emit LEVEL.FATAL "FATAL" LEVEL.FATAL (sprintf format args) env

def ZxyLog.Debugln (z : ZxyLog) (args : List String) (env : CallEnv) : List Event :=
  z.emit LEVEL.DEBUG "DEBUG" LEVEL.DEBUG (Sprintln args) env

def ZxyLog.Infoln (z : ZxyLog) (args : List String) (env : CallEnv) : List Event :=
  z.emit LEVEL.INFO "INFO" LEVEL.INFO (Sprintln args) env

def ZxyLog.Warnln (z : ZxyLog) (args : List String) (env : CallEnv) : List Event :=
  z.emit LEVEL.WARN "WARN" LEVEL.WARN (Sprintln args) env

def ZxyLog.Errorln (z : ZxyLog) (args : List String) (env : CallEnv) : List Event :=
  z.emit LEVEL.ERROR "ERROR" LEVEL.ERROR (Sprintln args) env

def ZxyLog.Fatalln (z : ZxyLog) (args : List String) (env : CallEnv) : List Event :=
  z.emit LEVEL.FATAL "FATAL" LEVEL.FATAL (Sprintln args) env

/-- The fifteen emission methods by name. -/
inductive Method where
  | Debug | Info | Warn | Error | Fatal
  | Debugf | Infof | Warnf | Errorf | Fatalf
  | Debugln | Infoln | Warnln | Errorln | Fatalln
  deriving DecidableEq, Repr

/-- Severity a method stands for. -/
def Method.severity : Method → LEVEL
  | .Debug | .Debugf | .Debugln => LEVEL.DEBUG
  | .Info | .Infof | .Infoln => LEVEL.INFO
  | .Warn | .Warnf | .Warnln => LEVEL.WARN
  | .Error | .Errorf | .Errorln => LEVEL.ERROR
  | .Fatal | .Fatalf | .Fatalln => LEVEL.FATAL

/-- Word a method puts in front of the message. -/
def Method.tag : Method → String
  | .Debug | .Debugf | .Debugln => "DEBUG"
  | .Info | .Infof | .Infoln => "INFO"
  | .Warn | .Warnf | .Warnln => "WARN"
  | .Error | .Errorf | .Errorln => "ERROR"
  | .Fatal | .Fatalf | .Fatalln => "FATAL"

/-- Arguments of a call: the single operand of the plain methods, the format of
the formatted ones, the operands of the formatted and line ones. -/
structure CallArgs where
  arg : String
  format : String
  args : List String
  sprintf : Formatter

/-- Message text as the method's `fmt` call renders it. -/
def Method.render (m : Method) (a : CallArgs) : String :=
  match m with
  | .Debug | .Info | .Warn | .Error | .Fatal => Sprintln [a.arg]
  | .Debugf | .Infof | .Warnf | .Errorf | .Fatalf => a.sprintf a.format a.args
  | .Debugln | .Infoln | .Warnln | .Errorln | .Fatalln => Sprintln a.args

/-- Calls the named method. -/
def Method.run (m : Method) (z : ZxyLog) (a : CallArgs) (env : CallEnv) : List Event :=
  match m with
  | .Debug => z.Debug a.arg env
  | .Info => z.Info a.arg env
  | .Warn => z.Warn a.arg env
  | .Error => z.Error a.arg env
  | .Fatal => z.Fatal a.arg env
  | .Debugf => z.Debugf a.sprintf a.format a.args env
  | .Infof => z.Infof a.sprintf a.format a.args env
  | .Warnf => z.Warnf a.sprintf a.format a.args env
  | .Errorf => z.Errorf a.sprintf a.format a.args env
  | .Fatalf => z.Fatalf a.sprintf a.format a.args env
  | .Debugln => z.Debugln a.args env
  | .Infoln => z.Infoln a.args env
  | .Warnln => z.Warnln a.args env
  | .Errorln => z.Errorln a.args env
  | .Fatalln => z.Fatalln a.args env

/-- Sets the level below which calls are dropped. -/
def ZxyLog.SetLevel (z : ZxyLog) (_level : LEVEL) : ZxyLog :=
  { z with logLevel := _level }

/-- Switches the terminal output on or off. -/
def ZxyLog.SetConsole (z : ZxyLog) (isConsole : Bool) : ZxyLog :=
  { z with logConsole := isConsole }

/-- Sets the prefix shown on the terminal. -/
def ZxyLog.SetConsolePrefix (z : ZxyLog) (pfx : String) : ZxyLog :=
  { z with logConsolePrefix := pfx }

/-! ## The registry (`core/manager.go`) -/

/-- The struct `LogManager`: a map from name to writer (`none` for a missing key). -/
structure LogManager where
  loggers : String → Option ZxyLog

/-- Package state of the registry: the variable `logManager` (a pointer, `none`
for nil) and the managers allocated so far; a pointer is an index into `heap`. -/
structure Globals where
  logManager : Option Nat
  heap : List LogManager

/-- State when the program starts: `logManager` is nil, nothing allocated. -/
def Globals.initial : Globals := ⟨none, []⟩

/-- Returns the manager: a newly allocated empty one while `logManager` is nil
(the variable itself is not assigned), the one `logManager` points to otherwise. -/
def getLogManager (g : Globals) : Nat × Globals :=
  match g.logManager with
  | none => (g.heap.length, { g with heap := g.heap ++ [⟨fun _ => none⟩] })
  | some p => (p, g)

/-- Returns the global manager. -/
def NewLogManager (g : Globals) : Nat × Globals :=
  getLogManager g

/-- Looks a writer up by name; the receiver is not used by the body. -/
def GetLogger (_recv : Nat) (loggerName : String) (g : Globals) : Option ZxyLog × Globals :=
  let r := getLogManager g
  (((r.2.heap.get? r.1).bind (fun m => m.loggers loggerName)), r.2)

/-- Stores a writer under its file name; the receiver is not used by the body. -/
def SetLogger (_recv : Nat) (logFile : ZxyLog) (g : Globals) : Globals :=
  let r := getLogManager g
  ⟨r.2.logManager, List.modify
    (fun m => ⟨fun k => if k = logFile.logFilename then some logFile else m.loggers k⟩) r.1 r.2.heap⟩

/-! ## Construction -/

/-- How a call that may panic or loop ends: `running` means the fuel ran out. -/
inductive Outcome (α : Type) where
  | done (a : α)
  | panicked (msg : String)
  | running

/-- The directory fix-up at the head of `NewZxyLog`: one trailing `\` or `/` is
cut off. The index expression panics on the empty string (`none`). -/
def fixDir (fileDir : String) : Option String :=
  match fileDir.toList.getLast? with
  | none => none
  | some c => if c = '\\' || c = '/' then some (String.mk fileDir.toList.dropLast) else some fileDir

/-- Creates a writer for directory `fileDir` and base name `fileName`: fixes the
directory, opens the first log file (an error panics) and registers the writer. -/
def NewZxyLog (fileDir fileName : String) (now : Time) (fs : FS) (g : Globals) (fuel : Nat) :
    Outcome (ZxyLog × FS × Globals) :=
  match fixDir fileDir with
  | none => Outcome.panicked "runtime error: index out of range [-1]"
  | some dir =>
    let zxyLog : ZxyLog :=
      { logDir := dir, logFilename := fileName, timestamp := now, logFilePath := "",
        logFile := none, logger := none, logConsole := true, logConsolePrefix := "",
        logLevel := LEVEL.ALL }
    match zxyLog.newLogFile fs fuel with
    | none => Outcome.running
    | some (fn, fs1) =>
      match OpenFile fs1 fn with
      | (none, _) => Outcome.panicked "open"
      | (some f, fs2) =>
        let z := { zxyLog with logFile := some f, logger := some ⟨some f, "", logFlags⟩,
                               logFilePath := fn }
        Outcome.done (z, fs2, SetLogger (getLogManager g).1 z (getLogManager g).2)

/-- The value a call ended with, if it ended normally. -/
def Outcome.get? {α : Type} : Outcome α → Option α
  | .done a => some a
  | .panicked _ => none
  | .running => none

/-! ## Vocabulary of the statements -/

/-- Does the string end with a path separator, `/` or `\`? -/
def endsWithSeparator (s : String) : Bool :=
  s.toList.getLast? = some '/' || s.toList.getLast? = some '\\'

/-- The string without its last character. -/
def dropLastChar (s : String) : String :=
  String.mk s.toList.dropLast

/-- The calendar day of a timestamp: year, month and day of the month. -/
def Time.calendarDay (t : Time) : Int × Nat × Nat :=
  (t.year, t.month, t.day)

/-- The date of a timestamp as the format `%04d-%02d-%02d` writes it. -/
def dateString (t : Time) : String :=
  fmtPad 4 t.year ++ "-" ++ fmtPad 2 t.month ++ "-" ++ fmtPad 2 t.day

/-! ## Concrete inputs used by the closed statements -/

/-- Noon of 5 March 2024. -/
def march5 : Time := ⟨2024, 3, 5, 12, 0, 0, 0⟩

/-- The empty file tree. -/
def emptyFS : FS := fun _ => none

/-- A writer for directory `logs` and base name `app`, created on 5 March 2024
and writing to the first file of that day. -/
def appWriter : ZxyLog :=
  { logDir := "logs", logFilename := "app", timestamp := march5,
    logFilePath := "logs/2024-03-05//app.log", logFile := some "logs/2024-03-05//app.log",
    logger := some ⟨some "logs/2024-03-05//app.log", "", logFlags⟩, logConsole := true,
    logConsolePrefix := "", logLevel := LEVEL.ALL }

/-- A tree holding the dated directory with `app.log` and `app_1.log`, both empty. -/
def twoLogsFS : FS := fun k =>
  if k = ["logs"] ∨ k = ["logs", "2024-03-05"] then some (Node.dir 4096)
  else if k = ["logs", "2024-03-05", "app.log"] ∨ k = ["logs", "2024-03-05", "app_1.log"] then
    some (Node.file [])
  else none

/-- A writer created on 1 January 2023 whose file is present and empty. -/
def newYearWriter : ZxyLog :=
  { logDir := "logs", logFilename := "app", timestamp := ⟨2023, 1, 1, 9, 0, 0, 0⟩,
    logFilePath := "logs/2023-01-01//app.log", logFile := some "logs/2023-01-01//app.log",
    logger := some ⟨some "logs/2023-01-01//app.log", "", logFlags⟩, logConsole := true,
    logConsolePrefix := "", logLevel := LEVEL.ALL }

/-- The tree in which `newYearWriter` has its empty file. -/
def newYearFS : FS := fun k =>
  if k = ["logs"] ∨ k = ["logs", "2023-01-01"] then some (Node.dir 4096)
  else if k = ["logs", "2023-01-01", "app.log"] then some (Node.file [])
  else none

/-- The content of a log file that has reached the size limit. -/
def fullLog : List UInt8 := List.replicate logMaxSize 0

/-- A tree in which `app.log` of 5 March 2024 has reached the size limit. -/
def fullFS : FS := fun k =>
  if k = ["logs"] ∨ k = ["logs", "2024-03-05"] then some (Node.dir 4096)
  else if k = ["logs", "2024-03-05", "app.log"] then some (Node.file fullLog)
  else none

/-! ## Facts about the file tree -/

theorem resolve_empty : resolve "" = [] := by decide

theorem FS.set_same (fs : FS) (k : List String) (n : Node) : fs.set k n k = some n := by
  simp [FS.set]

theorem FS.set_file_iff (fs : FS) (k q : List String) (s : Nat) (c : List UInt8)
    (hk : fs k = none) :
    fs.set k (Node.dir s) q = some (Node.file c) ↔ fs q = some (Node.file c) := by
  unfold FS.set
  by_cases hq : q = k
  · subst hq
    simp [hk]
  · simp [hq]

/-- Creating directories neither adds, removes nor changes a regular file. -/
theorem mkdirFrom_file (l : List String) :
    ∀ (fs : FS) (pre q : List String) (c : List UInt8),
      mkdirFrom fs pre l q = some (Node.file c) ↔ fs q = some (Node.file c) := by
  induction l with
  | nil => intro fs pre q c; simp [mkdirFrom]
  | cons a rest ih =>
    intro fs pre q c
    unfold mkdirFrom
    cases hk : fs (pre ++ [a]) with
    | none =>
      simp only
      rw [ih]
      exact FS.set_file_iff fs _ q _ c hk
    | some n =>
      cases n with
      | file c' => simp
      | dir sz => simp only; rw [ih]

theorem stat_MkdirAll_file (fs : FS) (d p : String) (c : List UInt8) :
    stat (MkdirAll fs d) p = some (Node.file c) ↔ stat fs p = some (Node.file c) := by
  unfold stat MkdirAll
  by_cases h1 : p = ""
  · simp [h1]
  · by_cases h2 : resolve p = []
    · simp [h1, h2]
    · simp only [h1, h2, if_false]
      exact mkdirFrom_file _ fs [] _ c

theorem isFileExist_iff (fs : FS) (p : String) :
    isFileExist fs p = true ↔ ∃ c, stat fs p = some (Node.file c) := by
  unfold isFileExist
  cases h : stat fs p with
  | none => simp
  | some n => cases n <;> simp [Node.isDir]

theorem isFileExist_false_iff (fs : FS) (p : String) :
    isFileExist fs p = false ↔ ¬ ∃ c, stat fs p = some (Node.file c) := by
  rw [← isFileExist_iff]
  simp

theorem isFileExist_MkdirAll (fs : FS) (d p : String) :
    isFileExist (MkdirAll fs d) p = isFileExist fs p := by
  have h : isFileExist (MkdirAll fs d) p = true ↔ isFileExist fs p = true := by
    rw [isFileExist_iff, isFileExist_iff]
    constructor
    · rintro ⟨c, hc⟩
      exact ⟨c, (stat_MkdirAll_file fs d p c).1 hc⟩
    · rintro ⟨c, hc⟩
      exact ⟨c, (stat_MkdirAll_file fs d p c).2 hc⟩
  cases h1 : isFileExist (MkdirAll fs d) p <;> cases h2 : isFileExist fs p <;> simp_all

/-- Opening a file leaves every regular file of the tree as it was. -/
theorem OpenFile_keeps_files (fs : FS) (p : String) (q : List String) (c : List UInt8)
    (h : fs q = some (Node.file c)) : (OpenFile fs p).2 q = some (Node.file c) := by
  unfold OpenFile
  split
  · exact h
  · split
    · exact h
    · exact h
    · rename_i hnone
      have hq : q ≠ resolve p := by
        intro e
        rw [e, hnone] at h
        exact absurd h (by simp)
      split
      · simp [FS.set, hq, h]
      · split
        · simp [FS.set, hq, h]
        · exact h

/-- A successful open at a name where no regular file was leaves an empty file there. -/
theorem OpenFile_created (fs : FS) (p : String) (h : isFileExist fs p = false)
    (ho : (OpenFile fs p).1 ≠ none) : stat (OpenFile fs p).2 p = some (Node.file []) := by
  have hne : ∀ (fs2 : FS), resolve p ≠ [] →
      stat (fs2.set (resolve p) (Node.file [])) p = some (Node.file []) := by
    intro fs2 hr
    have hp : p ≠ "" := by
      intro e
      rw [e] at hr
      exact hr resolve_empty
    simp [stat, hp, hr, FS.set]
  have hstat : ∀ c, fs (resolve p) = some (Node.file c) → resolve p ≠ [] → False := by
    intro c hc hr
    have hp : p ≠ "" := by
      intro e
      rw [e] at hr
      exact hr resolve_empty
    have : isFileExist fs p = true := by
      rw [isFileExist_iff]
      exact ⟨c, by simp [stat, hp, hr, hc]⟩
    rw [h] at this
    exact absurd this (by simp)
  by_cases hr : resolve p = []
  · simp [OpenFile, hr] at ho
  · cases hn : fs (resolve p) with
    | some n =>
      cases n with
      | file c => exact absurd (hstat c hn hr) id
      | dir sz => simp [OpenFile, hr, hn] at ho
    | none =>
      by_cases hd : (resolve p).dropLast = []
      · simp only [OpenFile, hr, hn, hd, if_true, if_false]
        exact hne fs hr
      · cases hpar : fs (resolve p).dropLast with
        | none => simp [OpenFile, hr, hn, hd, hpar] at ho
        | some m =>
          cases m with
          | file c => simp [OpenFile, hr, hn, hd, hpar] at ho
          | dir sz =>
            simp only [OpenFile, hr, hn, hd, hpar, if_false]
            exact hne fs hr

/-! ## Facts about the probing loop -/

theorem probe_first_free (fs : FS) (f : String) :
    ∀ (k n fuel : Nat), isFileExist fs (candidate f (n + k)) = false → k < fuel →
      ∃ j, j ≤ k ∧ probe fs f fuel n = some (candidate f (n + j)) ∧
        (∀ i, i < j → isFileExist fs (candidate f (n + i)) = true) ∧
        isFileExist fs (candidate f (n + j)) = false := by
  intro k
  induction k with
  | zero =>
    intro n fuel hfree hfuel
    obtain ⟨fuel, rfl⟩ : ∃ m, fuel = m + 1 := ⟨fuel - 1, by omega⟩
    refine ⟨0, le_refl _, ?_, ?_, hfree⟩
    · simp only [Nat.add_zero] at hfree
      simp [probe, hfree]
    · intro i hi
      omega
  | succ k ih =>
    intro n fuel hfree hfuel
    obtain ⟨fuel, rfl⟩ : ∃ m, fuel = m + 1 := ⟨fuel - 1, by omega⟩
    cases hn : isFileExist fs (candidate f n) with
    | false =>
      refine ⟨0, Nat.zero_le _, ?_, ?_, ?_⟩
      · simp [probe, hn]
      · intro i hi
        omega
      · simpa using hn
    | true =>
      have hfree2 : isFileExist fs (candidate f (n + 1 + k)) = false := by
        have e : n + 1 + k = n + (k + 1) := by omega
        rw [e]
        exact hfree
      obtain ⟨j, hj, hp, hall, hfr⟩ := ih (n + 1) fuel hfree2 (by omega)
      refine ⟨j + 1, by omega, ?_, ?_, ?_⟩
      · have e : n + (j + 1) = n + 1 + j := by omega
        rw [e]
        simp [probe, hn, hp]
      · intro i hi
        cases i with
        | zero => simpa using hn
        | succ i =>
          have e : n + (i + 1) = n + 1 + i := by omega
          rw [e]
          exact hall i (by omega)
      · have e : n + (j + 1) = n + 1 + j := by omega
        rw [e]
        exact hfr

/-- With a free candidate at index `N`, `newLogFile` ends within `N` iterations
at the least free index. -/
theorem newLogFile_spec (z : ZxyLog) (fs : FS) (N : Nat)
    (hfree : isFileExist fs (candidate z.baseFile N) = false) :
    ∃ k, k ≤ N ∧
      (∀ fuel, N ≤ fuel →
        z.newLogFile fs fuel = some (candidate z.baseFile k, MkdirAll fs z.dateDir)) ∧
      (∀ j, j < k → isFileExist fs (candidate z.baseFile j) = true) ∧
      isFileExist fs (candidate z.baseFile k) = false := by
  cases h0 : isFileExist fs (candidate z.baseFile 0) with
  | false =>
    refine ⟨0, Nat.zero_le _, ?_, ?_, h0⟩
    · intro fuel _
      have h0b : isFileExist (MkdirAll fs z.dateDir) (z.baseFile ++ ".log") = false := by
        rw [isFileExist_MkdirAll]
        exact h0
      simp [ZxyLog.newLogFile, h0b, candidate]
    · intro j hj
      omega
  | true =>
    have hN : 1 ≤ N := by
      rcases Nat.eq_zero_or_pos N with e | e
      · rw [e, h0] at hfree
        exact absurd hfree (by simp)
      · exact e
    have hfree2 : isFileExist (MkdirAll fs z.dateDir) (candidate z.baseFile (1 + (N - 1))) = false := by
      rw [isFileExist_MkdirAll]
      have e : 1 + (N - 1) = N := by omega
      rw [e]
      exact hfree
    obtain ⟨j, hj, hp, hall, hfr⟩ :=
      probe_first_free (MkdirAll fs z.dateDir) z.baseFile (N - 1) 1 N hfree2 (by omega)
    have h0b : isFileExist (MkdirAll fs z.dateDir) (z.baseFile ++ ".log") = true := by
      rw [isFileExist_MkdirAll]
      exact h0
    refine ⟨1 + j, by omega, ?_, ?_, ?_⟩
    · intro fuel hfuel
      obtain ⟨j2, hj2, hp2, hall2, hfr2⟩ :=
        probe_first_free (MkdirAll fs z.dateDir) z.baseFile (N - 1) 1 fuel hfree2 (by omega)
      have hjj : j2 = j := by
        rcases Nat.lt_trichotomy j2 j with hlt | heq | hgt
        · rw [hall j2 hlt] at hfr2
          exact absurd hfr2 (by simp)
        · exact heq
        · rw [hall2 j hgt] at hfr
          exact absurd hfr (by simp)
      subst hjj
      simp [ZxyLog.newLogFile, h0b, hp2]
    · intro i hi
      cases i with
      | zero => exact h0
      | succ i =>
        have e : i + 1 = 1 + i := by omega
        rw [e, ← isFileExist_MkdirAll fs z.dateDir]
        exact hall i (by omega)
    · rw [← isFileExist_MkdirAll fs z.dateDir]
      exact hfr

/-! ## Facts about the rotation decision and the rotation -/

theorem stat_file_iff (fs : FS) (p : String) (c : List UInt8) :
    stat fs p = some (Node.file c) ↔
      p ≠ "" ∧ resolve p ≠ [] ∧ fs (resolve p) = some (Node.file c) := by
  unfold stat
  by_cases h1 : p = ""
  · simp [h1]
  · by_cases h2 : resolve p = []
    · simp [h1, h2]
    · simp [h1, h2]

theorem isMustRename_fst (z : ZxyLog) (fs : FS) (now : Time) :
    (z.isMustRename fs now).1 = (z.checkFileDate now || z.checkFileSize fs || z.checkFileExist fs) := by
  unfold ZxyLog.isMustRename
  cases z.checkFileDate now <;> cases z.checkFileSize fs <;> cases z.checkFileExist fs <;> rfl

theorem isMustRename_snd_of_true (z : ZxyLog) (fs : FS) (now : Time)
    (h : (z.isMustRename fs now).1 = true) : (z.isMustRename fs now).2 = fs := by
  rw [isMustRename_fst] at h
  unfold ZxyLog.isMustRename
  cases h1 : z.checkFileDate now <;> cases h2 : z.checkFileSize fs <;>
    cases h3 : z.checkFileExist fs <;> simp_all

theorem checkFileSize_of_large (z : ZxyLog) (fs : FS) (c : List UInt8)
    (hcur : stat fs z.logFilePath = some (Node.file c)) (hsize : logMaxSize ≤ c.length) :
    z.checkFileSize fs = true := by
  unfold ZxyLog.checkFileSize
  rw [hcur]
  simp [Node.size, hsize]

/-- What `rename` returns once `newLogFile` has its answer. -/
theorem rename_eq (z : ZxyLog) (fs : FS) (now : Time) (fuel : Nat) (fn : String) (fs1 : FS)
    (h : ({ z with timestamp := now } : ZxyLog).newLogFile fs fuel = some (fn, fs1)) :
    z.rename fs now fuel =
      some ({ z with timestamp := now, logFile := (OpenFile fs1 fn).1,
                     logger := some ⟨(OpenFile fs1 fn).1, "", logFlags⟩, logFilePath := fn },
            (OpenFile fs1 fn).2) := by
  unfold ZxyLog.rename
  simp only [h]

/-- What a tick returns when the file must be replaced. -/
theorem fileCheck_eq_rename (z : ZxyLog) (fs : FS) (now now2 : Time) (fuel : Nat)
    (h : (z.isMustRename fs now).1 = true) :
    fileCheck (some z) fs now now2 fuel
      = (z.rename fs now2 fuel).map (fun r => (some r.1, r.2)) := by
  unfold fileCheck
  simp only [h, if_true, isMustRename_snd_of_true z fs now h]

/-- A writer whose timestamp is the present instant and whose file is present
and empty needs no new file, and a tick returns it as it is. -/
theorem tick_after_fresh_file (w : ZxyLog) (fs2 : FS) (t : Time) (hw : w.timestamp = t)
    (hs : stat fs2 w.logFilePath = some (Node.file [])) :
    (w.isMustRename fs2 t).1 = false ∧
      ∀ t2 fuel, (fileCheck (some w) fs2 t t2 fuel).map Prod.fst = some (some w) := by
  have hex : isFileExist fs2 w.logFilePath = true := (isFileExist_iff fs2 _).2 ⟨[], hs⟩
  have hf : (w.isMustRename fs2 t).1 = false := by
    rw [isMustRename_fst]
    simp [ZxyLog.checkFileDate, ZxyLog.checkFileSize, ZxyLog.checkFileExist, hw, hs, hex,
      Node.size, logMaxSize]
  refine ⟨hf, ?_⟩
  intro t2 fuel
  unfold fileCheck
  simp only [hf]
  rfl

/-! ## Facts about formatting -/

theorem digitChar_isDigit (m : Nat) (h : m < 10) : (Nat.digitChar m).isDigit = true := by
  interval_cases m <;> decide

theorem toDigitsCore_isDigit (f : Nat) :
    ∀ (n : Nat) (acc : List Char), (∀ c ∈ acc, c.isDigit = true) →
      ∀ c ∈ Nat.toDigitsCore 10 f n acc, c.isDigit = true := by
  induction f with
  | zero =>
    intro n acc hacc c hc
    simpa [Nat.toDigitsCore] using hacc c hc
  | succ f ih =>
    intro n acc hacc c hc
    have hd : (Nat.digitChar (n % 10)).isDigit = true :=
      digitChar_isDigit _ (Nat.mod_lt _ (by decide))
    have hacc2 : ∀ c ∈ Nat.digitChar (n % 10) :: acc, c.isDigit = true := by
      intro c hc
      rcases List.mem_cons.1 hc with e | e
      · rw [e]
        exact hd
      · exact hacc c e
    unfold Nat.toDigitsCore at hc
    simp only at hc
    split at hc
    · exact hacc2 c hc
    · exact ih _ _ hacc2 c hc

theorem repr_isDigit (n : Nat) : ∀ c ∈ (toString n).toList, c.isDigit = true := by
  intro c hc
  have e : (toString n).toList = Nat.toDigits 10 n := rfl
  rw [e] at hc
  exact toDigitsCore_isDigit _ _ [] (by simp) c hc

/-- A non-negative number below `10 ^ w` fills a `%0<w>d` field exactly. -/
theorem fmtPad_length (w : Nat) (n : Int) (hw : 0 < w) (h0 : 0 ≤ n) (h : n < 10 ^ w) :
    (fmtPad w n).length = w := by
  have hlen : (toString n.natAbs).length ≤ w := by
    apply Nat.repr_length _ _ hw
    zify
    rw [abs_of_nonneg h0]
    exact h
  unfold fmtPad
  simp only [not_lt.2 h0, if_false, String.length_append, String.length_mk,
    List.length_replicate]
  omega

theorem fmtPad_isDigit (w : Nat) (n : Int) (h0 : 0 ≤ n) :
    ∀ c ∈ (fmtPad w n).toList, c.isDigit = true := by
  intro c hc
  unfold fmtPad at hc
  simp only [not_lt.2 h0, if_false, String.toList, String.data_append, List.mem_append] at hc
  rcases hc with hc | hc
  · rw [List.eq_of_mem_replicate hc]
    decide
  · exact repr_isDigit _ c hc

theorem fmtInt_natCast (n : Nat) : fmtInt (n : Int) = toString n := by
  unfold fmtInt
  simp

/-- The name without extension, written out. -/
theorem baseFile_eq (z : ZxyLog) :
    z.baseFile = z.logDir ++ "/" ++ dateString z.timestamp ++ "//" ++ z.logFilename := by
  unfold ZxyLog.baseFile ZxyLog.dateDir dateString
  simp only [String.append_assoc]
  rfl

theorem candidate_succ_eq (z : ZxyLog) (n : Nat) :
    candidate z.baseFile (n + 1) =
      z.logDir ++ "/" ++ dateString z.timestamp ++ "//" ++ z.logFilename ++ "_"
        ++ toString (n + 1) ++ ".log" := by
  show z.baseFile ++ "_" ++ fmtInt ((n + 1 : Nat) : Int) ++ ".log" = _
  rw [fmtInt_natCast, baseFile_eq]

theorem candidate_zero_eq (z : ZxyLog) :
    candidate z.baseFile 0 =
      z.logDir ++ "/" ++ dateString z.timestamp ++ "//" ++ z.logFilename ++ ".log" := by
  unfold candidate
  rw [baseFile_eq]

/-! ## Facts about construction -/

theorem NewZxyLog_done_fixDir (fileDir fileName : String) (now : Time) (fs : FS) (g : Globals)
    (fuel : Nat) (z : ZxyLog)
    (hdone : (NewZxyLog fileDir fileName now fs g fuel).get?.map (fun r => r.1) = some z) :
    fixDir fileDir = some z.logDir := by
  unfold NewZxyLog at hdone
  cases hf : fixDir fileDir with
  | none => simp [hf, Outcome.get?] at hdone
  | some dir =>
    simp only [hf] at hdone
    split at hdone
    · simp [Outcome.get?] at hdone
    · split at hdone
      · simp [Outcome.get?] at hdone
      · simp only [Outcome.get?, Option.map_some', Option.some.injEq] at hdone
        rw [← hdone]

/-! ## The logger of a writer is always set -/

/-- A writer returned by `NewZxyLog` has its logger. -/
theorem NewZxyLog_logger_isSome (fileDir fileName : String) (now : Time) (fs : FS)
    (g : Globals) (fuel : Nat) (z : ZxyLog)
    (hdone : (NewZxyLog fileDir fileName now fs g fuel).get?.map (fun r => r.1) = some z) :
    z.logger ≠ none := by
  unfold NewZxyLog at hdone
  cases hf : fixDir fileDir with
  | none => simp [hf, Outcome.get?] at hdone
  | some dir =>
    simp only [hf] at hdone
    split at hdone
    · simp [Outcome.get?] at hdone
    · split at hdone
      · simp [Outcome.get?] at hdone
      · simp only [Outcome.get?, Option.map_some', Option.some.injEq] at hdone
        rw [← hdone]
        simp

/-- A writer returned by `rename` has its logger. -/
theorem rename_logger_isSome (z z' : ZxyLog) (fs fs' : FS) (now : Time) (fuel : Nat)
    (h : z.rename fs now fuel = some (z', fs')) : z'.logger ≠ none := by
  cases hn : ({ z with timestamp := now } : ZxyLog).newLogFile fs fuel with
  | none =>
    simp [ZxyLog.rename, hn] at h
  | some r =>
    rw [rename_eq z fs now fuel r.1 r.2 hn] at h
    simp only [Option.some.injEq, Prod.mk.injEq] at h
    rw [← h.1]
    simp

/-- The loop of `newLogFile` ends in every tree in which only finitely many
candidates exist, at the least free index. -/
theorem newLogFile_of_finitely_many (z : ZxyLog) (fs : FS)
    (hfin : ∃ N, ∀ n, N ≤ n → isFileExist fs (candidate z.baseFile n) = false) :
    ∃ k fuel0,
      (∀ fuel, fuel0 ≤ fuel →
        z.newLogFile fs fuel = some (candidate z.baseFile k, MkdirAll fs z.dateDir)) ∧
      (∀ j, j < k → isFileExist fs (candidate z.baseFile j) = true) ∧
      isFileExist fs (candidate z.baseFile k) = false := by
  obtain ⟨N, hN⟩ := hfin
  obtain ⟨k, _, hrun, hall, hfr⟩ := newLogFile_spec z fs N (hN N (le_refl N))
  exact ⟨k, N, hrun, hall, hfr⟩

/-! ## Severity filter -/

/-- C1: for every configured minimum level and every one of the fifteen emission
methods, called on a writer whose logger is set, the call hands its line to the
file logger and to `console` exactly when the method's severity is at least the
configured level; the line is the tag, a space and the rendered message with
trailing newlines removed, and with the console switched on it is printed. Below
the level the call does nothing at all. -/
theorem emission_iff_severity_ge_level (m : Method) (lvl : LEVEL) (z : ZxyLog) (l : Logger)
    (a : CallArgs) (env : CallEnv) (hl : z.logger = some l) :
    (lvl ≤ m.severity →
      m.run (z.SetLevel lvl) a env =
        [Event.rlock, Event.loggerOutput l 2 (trimRightNewline (m.tag ++ " " ++ m.render a))]
          ++ ((z.SetLevel lvl).console m.severity
                (trimRightNewline (m.tag ++ " " ++ m.render a)) env).map
              (fun s => Event.println [s])
          ++ [Event.runlock]) ∧
    (m.severity < lvl → m.run (z.SetLevel lvl) a env = []) ∧
    ((∃ s, Event.loggerOutput l 2 s ∈ m.run (z.SetLevel lvl) a env) ↔ lvl ≤ m.severity) ∧
    (z.logConsole = true →
      ((∃ s, Event.println [s] ∈ m.run (z.SetLevel lvl) a env) ↔ lvl ≤ m.severity)) := by
  have hrun : m.run (z.SetLevel lvl) a env =
      (z.SetLevel lvl).emit m.severity m.tag m.severity (m.render a) env := by
    cases m <;> rfl
  have hlog : (z.SetLevel lvl).logger = some l := hl
  have hlvl : (z.SetLevel lvl).logLevel = lvl := rfl
  have hyes : lvl ≤ m.severity →
      m.run (z.SetLevel lvl) a env =
        [Event.rlock, Event.loggerOutput l 2 (trimRightNewline (m.tag ++ " " ++ m.render a))]
          ++ ((z.SetLevel lvl).console m.severity
                (trimRightNewline (m.tag ++ " " ++ m.render a)) env).map
              (fun s => Event.println [s])
          ++ [Event.runlock] := by
    intro h
    rw [hrun]
    unfold ZxyLog.emit
    rw [hlvl, if_pos h, hlog]
  have hno : ¬ lvl ≤ m.severity → m.run (z.SetLevel lvl) a env = [] := by
    intro h
    rw [hrun]
    unfold ZxyLog.emit
    rw [hlvl, if_neg h]
  have hlt : m.severity < lvl → ¬ lvl ≤ m.severity := by
    intro h1 h2
    have h1b : m.severity.toNat < lvl.toNat := h1
    have h2b : lvl.toNat ≤ m.severity.toNat := h2
    omega
  refine ⟨hyes, fun h => hno (hlt h), ?_, ?_⟩
  · constructor
    · rintro ⟨s, hs⟩
      by_contra hc
      rw [hno hc] at hs
      simp at hs
    · intro h
      refine ⟨trimRightNewline (m.tag ++ " " ++ m.render a), ?_⟩
      rw [hyes h]
      simp
  · intro hcon
    constructor
    · rintro ⟨s, hs⟩
      by_contra hc
      rw [hno hc] at hs
      simp at hs
    · intro h
      have hc2 : (z.SetLevel lvl).logConsole = true := hcon
      rw [hyes h]
      unfold ZxyLog.console
      rw [hc2]
      cases m <;> simp [Method.severity]

/-- C1, at a concrete call: `Warnf` on a writer configured at `INFO`. -/
theorem emission_iff_severity_ge_level_witness :
    appWriter.logger = some ⟨some "logs/2024-03-05//app.log", "", logFlags⟩ ∧
    Method.Warnf.run (appWriter.SetLevel LEVEL.INFO)
        ⟨"", "disk %s", ["full"], fun _ _ => "disk full\n"⟩ ⟨"/src/main.go", 7, march5⟩ ≠ [] ∧
    Method.Debugf.run (appWriter.SetLevel LEVEL.INFO)
        ⟨"", "disk %s", ["full"], fun _ _ => "disk full\n"⟩ ⟨"/src/main.go", 7, march5⟩ = [] :=
  ⟨rfl,
   by
     rw [(emission_iff_severity_ge_level Method.Warnf LEVEL.INFO appWriter _
       ⟨"", "disk %s", ["full"], fun _ _ => "disk full\n"⟩ ⟨"/src/main.go", 7, march5⟩ rfl).1
       (by decide)]
     simp,
   (emission_iff_severity_ge_level Method.Debugf LEVEL.INFO appWriter _
       ⟨"", "disk %s", ["full"], fun _ _ => "disk full\n"⟩ ⟨"/src/main.go", 7, march5⟩ rfl).2.1
       (by decide)⟩

/-! ## Rotation decision -/

/-- What `isMustRename` tests: it answers true exactly when the day of the year
(not the calendar day) differs from that of the writer's timestamp, or the file
at the current path has at least 536870912 bytes, or no regular file is at the
current path; when it answers false a monitor tick returns the writer as it was
(path, timestamp and handle included). -/
theorem isMustRename_iff_any_condition (z : ZxyLog) (fs : FS) (now : Time) :
    ((z.isMustRename fs now).1 = true ↔
      (now.YearDay ≠ z.timestamp.YearDay ∨
       (∃ n, stat fs z.logFilePath = some n ∧ 536870912 ≤ n.size) ∨
       ¬ ∃ c, stat fs z.logFilePath = some (Node.file c))) ∧
    ((z.isMustRename fs now).1 = false →
      ∀ now2 fuel, (fileCheck (some z) fs now now2 fuel).map Prod.fst = some (some z)) := by
  have hdate : z.checkFileDate now = true ↔ now.YearDay ≠ z.timestamp.YearDay := by
    unfold ZxyLog.checkFileDate
    by_cases h : now.YearDay = z.timestamp.YearDay <;> simp [h]
  have hsize : z.checkFileSize fs = true ↔
      ∃ n, stat fs z.logFilePath = some n ∧ 536870912 ≤ n.size := by
    unfold ZxyLog.checkFileSize
    cases h : stat fs z.logFilePath with
    | none => simp
    | some n =>
      have e : logMaxSize = 536870912 := by decide
      simp [e]
  have hex : z.checkFileExist fs = true ↔ ¬ ∃ c, stat fs z.logFilePath = some (Node.file c) := by
    unfold ZxyLog.checkFileExist
    rw [← isFileExist_false_iff]
    cases isFileExist fs z.logFilePath <;> simp
  have hiff : (z.isMustRename fs now).1 = true ↔
      (z.checkFileDate now = true ∨ z.checkFileSize fs = true ∨ z.checkFileExist fs = true) := by
    unfold ZxyLog.isMustRename
    cases z.checkFileDate now <;> cases z.checkFileSize fs <;> cases z.checkFileExist fs <;> simp
  refine ⟨?_, ?_⟩
  · rw [hiff, hdate, hsize, hex]
  · intro h now2 fuel
    simp [fileCheck, h]

/-- C2: the writer was created on 1 January 2023, its file is present and empty,
and the clock reads 1 January 2024. The calendar day differs from that of the
timestamp, so the first of the three conditions holds, yet `isMustRename`
answers false: it is not true exactly when one of the conditions holds. -/
theorem isMustRename_false_on_later_calendar_day :
    Time.calendarDay ⟨2024, 1, 1, 9, 0, 0, 0⟩ ≠ newYearWriter.timestamp.calendarDay ∧
    stat newYearFS newYearWriter.logFilePath = some (Node.file []) ∧
    (newYearWriter.isMustRename newYearFS ⟨2024, 1, 1, 9, 0, 0, 0⟩).1 = false ∧
    ¬ ((newYearWriter.isMustRename newYearFS ⟨2024, 1, 1, 9, 0, 0, 0⟩).1 = true ↔
        (Time.calendarDay ⟨2024, 1, 1, 9, 0, 0, 0⟩ ≠ newYearWriter.timestamp.calendarDay ∨
         (∃ n, stat newYearFS newYearWriter.logFilePath = some n ∧ 536870912 ≤ n.size) ∨
         ¬ ∃ c, stat newYearFS newYearWriter.logFilePath = some (Node.file c))) := by
  have hday : Time.calendarDay ⟨2024, 1, 1, 9, 0, 0, 0⟩ ≠ newYearWriter.timestamp.calendarDay := by
    decide
  have hfalse : (newYearWriter.isMustRename newYearFS ⟨2024, 1, 1, 9, 0, 0, 0⟩).1 = false := by
    decide
  refine ⟨hday, by decide, hfalse, ?_⟩
  intro h
  have htrue := h.2 (Or.inl hday)
  rw [hfalse] at htrue
  exact absurd htrue (by simp)

/-- C5: the writer was created on 1 January 2023 and the clock reads 1 January
2024, a different calendar day; both are day 1 of their year, so `checkFileDate`
answers false and, the file being present and small, so does `isMustRename`. -/
theorem checkFileDate_false_one_year_later :
    (newYearWriter.timestamp.year, newYearWriter.timestamp.month, newYearWriter.timestamp.day)
        ≠ ((2024 : Int), 1, 1) ∧
    newYearWriter.checkFileDate ⟨2024, 1, 1, 9, 0, 0, 0⟩ = false ∧
    (newYearWriter.isMustRename newYearFS ⟨2024, 1, 1, 9, 0, 0, 0⟩).1 = false := by
  decide

/-! ## Naming of new files -/

/-- C3: whenever some candidate index `N` is free (which is so when only
finitely many candidate files exist), `newLogFile` ends within `N` iterations of
its loop and returns the candidate of the least free index `k`: the candidates
`baseName.log`, `baseName_1.log`, ..., of index below `k` all exist and the one
of index `k` does not. -/
theorem newLogFile_first_free_candidate (z : ZxyLog) (fs : FS) (N : Nat)
    (hfree : isFileExist fs (candidate z.baseFile N) = false) :
    ∃ k, k ≤ N ∧
      (∀ fuel, N ≤ fuel → (z.newLogFile fs fuel).map Prod.fst = some (candidate z.baseFile k)) ∧
      (∀ j, j < k → isFileExist fs (candidate z.baseFile j) = true) ∧
      isFileExist fs (candidate z.baseFile k) = false ∧
      candidate z.baseFile 0 = z.baseFile ++ ".log" ∧
      candidate z.baseFile 1 = z.baseFile ++ "_1.log" ∧
      candidate z.baseFile 2 = z.baseFile ++ "_2.log" := by
  obtain ⟨k, hk, hrun, hall, hfr⟩ := newLogFile_spec z fs N hfree
  refine ⟨k, hk, ?_, hall, hfr, rfl, ?_, ?_⟩
  · intro fuel hfuel
    rw [hrun fuel hfuel]
    rfl
  · show z.baseFile ++ "_" ++ fmtInt 1 ++ ".log" = z.baseFile ++ "_1.log"
    rw [String.append_assoc, String.append_assoc]
    rfl
  · show z.baseFile ++ "_" ++ fmtInt 2 ++ ".log" = z.baseFile ++ "_2.log"
    rw [String.append_assoc, String.append_assoc]
    rfl

/-- C3, at a concrete tree: `app.log` and `app_1.log` exist, so the next name is `app_2.log`. -/
theorem newLogFile_first_free_candidate_witness :
    isFileExist twoLogsFS (candidate appWriter.baseFile 2) = false ∧
    (appWriter.newLogFile twoLogsFS 2).map Prod.fst = some "logs/2024-03-05//app_2.log" ∧
    ∃ k, k ≤ 2 ∧
      (∀ fuel, 2 ≤ fuel →
        (appWriter.newLogFile twoLogsFS fuel).map Prod.fst = some (candidate appWriter.baseFile k)) ∧
      (∀ j, j < k → isFileExist twoLogsFS (candidate appWriter.baseFile j) = true) ∧
      isFileExist twoLogsFS (candidate appWriter.baseFile k) = false ∧
      candidate appWriter.baseFile 0 = appWriter.baseFile ++ ".log" ∧
      candidate appWriter.baseFile 1 = appWriter.baseFile ++ "_1.log" ∧
      candidate appWriter.baseFile 2 = appWriter.baseFile ++ "_2.log" :=
  ⟨by decide, by decide, newLogFile_first_free_candidate appWriter twoLogsFS 2 (by decide)⟩

/-! ## Registry -/

theorem getLogManager_nil (g : Globals) (h : g.logManager = none) :
    getLogManager g = (g.heap.length, ⟨none, g.heap ++ [⟨fun _ => none⟩]⟩) := by
  unfold getLogManager
  rw [h]

/-- While the package variable is nil every lookup answers nil, whatever was stored. -/
theorem GetLogger_of_nil (g : Globals) (h : g.logManager = none) (recv : Nat) (name : String) :
    (GetLogger recv name g).1 = none := by
  unfold GetLogger
  rw [getLogManager_nil g h]
  simp

/-- Storing a writer leaves the package variable as it was. -/
theorem SetLogger_logManager (g : Globals) (recv : Nat) (w : ZxyLog) :
    (SetLogger recv w g).logManager = g.logManager := by
  unfold SetLogger getLogManager
  cases h : g.logManager <;> simp [h]

/-- C8: starting from the initial package state, a writer stored with
`SetLogger` on the manager returned by `NewLogManager` is not found by
`GetLogger` under its own name: the lookup answers nil. -/
theorem GetLogger_after_SetLogger_is_nil (w : ZxyLog) :
    (GetLogger (NewLogManager Globals.initial).1 w.logFilename
      (SetLogger (NewLogManager Globals.initial).1 w (NewLogManager Globals.initial).2)).1
      = none := by
  apply GetLogger_of_nil
  rw [SetLogger_logManager]
  rfl

/-! ## Rotation -/

/-- C4: when the writer's current file is a regular file of at least
`logMaxSize` bytes (and some candidate name is free, as in every finite tree),
one tick of the monitor moves the writer to a path at which no regular file was
before the tick, different from the old path, and every regular file of the tree
before the tick is still there with the same content afterwards, the old log
file at its old path among them. -/
theorem fileCheck_rotation_keeps_files (z : ZxyLog) (fs : FS) (now0 now : Time) (N : Nat)
    (c : List UInt8)
    (hcur : stat fs z.logFilePath = some (Node.file c))
    (hsize : logMaxSize ≤ c.length)
    (hfree : isFileExist fs (candidate ({ z with timestamp := now } : ZxyLog).baseFile N) = false) :
    ∃ z' fs',
      (∀ fuel, N ≤ fuel → fileCheck (some z) fs now0 now fuel = some (some z', fs')) ∧
      isFileExist fs z'.logFilePath = false ∧
      z'.logFilePath ≠ z.logFilePath ∧
      (∀ q c', fs q = some (Node.file c') → fs' q = some (Node.file c')) ∧
      stat fs' z.logFilePath = some (Node.file c) := by
  have hmust : (z.isMustRename fs now0).1 = true := by
    rw [isMustRename_fst, checkFileSize_of_large z fs c hcur hsize]
    simp
  obtain ⟨k, _, hrun, _, hfr⟩ := newLogFile_spec _ fs N hfree
  have hkeep : ∀ q c', fs q = some (Node.file c') →
      (OpenFile (MkdirAll fs ({ z with timestamp := now } : ZxyLog).dateDir)
        (candidate ({ z with timestamp := now } : ZxyLog).baseFile k)).2 q
        = some (Node.file c') := by
    intro q c' hq
    apply OpenFile_keeps_files
    exact (mkdirFrom_file _ fs [] q c').2 hq
  refine ⟨{ z with timestamp := now,
                   logFile := (OpenFile (MkdirAll fs ({ z with timestamp := now } : ZxyLog).dateDir)
                     (candidate ({ z with timestamp := now } : ZxyLog).baseFile k)).1,
                   logger := some ⟨(OpenFile (MkdirAll fs
                     ({ z with timestamp := now } : ZxyLog).dateDir)
                     (candidate ({ z with timestamp := now } : ZxyLog).baseFile k)).1, "", logFlags⟩,
                   logFilePath := candidate ({ z with timestamp := now } : ZxyLog).baseFile k },
    _, ?_, ?_, ?_, hkeep, ?_⟩
  · intro fuel hfuel
    rw [fileCheck_eq_rename z fs now0 now fuel hmust,
      rename_eq z fs now fuel _ _ (hrun fuel hfuel)]
    rfl
  · exact hfr
  · intro e
    have hex : isFileExist fs z.logFilePath = true := (isFileExist_iff fs _).2 ⟨c, hcur⟩
    have e2 : candidate ({ z with timestamp := now } : ZxyLog).baseFile k = z.logFilePath := e
    rw [e2, hex] at hfr
    exact absurd hfr (by simp)
  · obtain ⟨h1, h2, h3⟩ := (stat_file_iff fs _ c).1 hcur
    exact (stat_file_iff _ _ c).2 ⟨h1, h2, hkeep _ c h3⟩

/-- C4, at a concrete tree: `app.log` is full, the tick moves on to `app_1.log`. -/
theorem fileCheck_rotation_keeps_files_witness :
    stat fullFS appWriter.logFilePath = some (Node.file fullLog) ∧
    logMaxSize ≤ fullLog.length ∧
    ∃ z' fs',
      (∀ fuel, 1 ≤ fuel →
        fileCheck (some appWriter) fullFS march5 march5 fuel = some (some z', fs')) ∧
      isFileExist fullFS z'.logFilePath = false ∧
      z'.logFilePath ≠ appWriter.logFilePath ∧
      (∀ q c', fullFS q = some (Node.file c') → fs' q = some (Node.file c')) ∧
      stat fs' appWriter.logFilePath = some (Node.file fullLog) :=
  ⟨rfl, by simp [fullLog],
   fileCheck_rotation_keeps_files appWriter fullFS march5 march5 1 fullLog rfl
     (by simp [fullLog])
     (by decide)⟩

/-- C10: when the file must be replaced at instant `t` (for whichever reasons)
and some candidate name is free, one tick at `t` is one call of `rename`; the
writer's timestamp is then `t` and its path the name `newLogFile` computed for
`t`; if the new file was opened, it exists and is empty, `isMustRename` at `t`
answers false and a second tick at `t` returns the writer unchanged. -/
theorem fileCheck_single_rotation (z : ZxyLog) (fs : FS) (t : Time) (N : Nat)
    (hmust : (z.isMustRename fs t).1 = true)
    (hfree : isFileExist fs (candidate ({ z with timestamp := t } : ZxyLog).baseFile N) = false) :
    ∃ fn z' fs',
      (∀ fuel, N ≤ fuel →
        (({ z with timestamp := t } : ZxyLog).newLogFile fs fuel).map Prod.fst = some fn ∧
        z.rename fs t fuel = some (z', fs') ∧
        fileCheck (some z) fs t t fuel = some (some z', fs')) ∧
      z'.timestamp = t ∧ z'.logFilePath = fn ∧
      (z'.logFile ≠ none →
        stat fs' fn = some (Node.file []) ∧
        (z'.isMustRename fs' t).1 = false ∧
        ∀ fuel, (fileCheck (some z') fs' t t fuel).map Prod.fst = some (some z')) := by
  obtain ⟨k, _, hrun, _, hfr⟩ := newLogFile_spec _ fs N hfree
  refine ⟨candidate ({ z with timestamp := t } : ZxyLog).baseFile k,
    { z with timestamp := t,
             logFile := (OpenFile (MkdirAll fs ({ z with timestamp := t } : ZxyLog).dateDir)
               (candidate ({ z with timestamp := t } : ZxyLog).baseFile k)).1,
             logger := some ⟨(OpenFile (MkdirAll fs ({ z with timestamp := t } : ZxyLog).dateDir)
               (candidate ({ z with timestamp := t } : ZxyLog).baseFile k)).1, "", logFlags⟩,
             logFilePath := candidate ({ z with timestamp := t } : ZxyLog).baseFile k },
    (OpenFile (MkdirAll fs ({ z with timestamp := t } : ZxyLog).dateDir)
               (candidate ({ z with timestamp := t } : ZxyLog).baseFile k)).2, ?_, rfl, rfl, ?_⟩
  · intro fuel hfuel
    refine ⟨?_, rename_eq z fs t fuel _ _ (hrun fuel hfuel), ?_⟩
    · rw [hrun fuel hfuel]
      rfl
    · rw [fileCheck_eq_rename z fs t t fuel hmust, rename_eq z fs t fuel _ _ (hrun fuel hfuel)]
      rfl
  · intro hopen
    have hfr1 : isFileExist (MkdirAll fs ({ z with timestamp := t } : ZxyLog).dateDir)
        (candidate ({ z with timestamp := t } : ZxyLog).baseFile k) = false := by
      rw [isFileExist_MkdirAll]
      exact hfr
    have hnew := OpenFile_created _ _ hfr1 hopen
    exact ⟨hnew, (tick_after_fresh_file _ _ t rfl hnew).1,
      (tick_after_fresh_file _ _ t rfl hnew).2 t⟩

/-- C10, at a concrete tick: the day has changed and the old file is also gone. -/
theorem fileCheck_single_rotation_witness :
    (appWriter.isMustRename emptyFS ⟨2024, 3, 6, 0, 0, 5, 0⟩).1 = true ∧
    ∃ fn z' fs',
      (∀ fuel, 0 ≤ fuel →
        (({ appWriter with timestamp := ⟨2024, 3, 6, 0, 0, 5, 0⟩ } : ZxyLog).newLogFile
          emptyFS fuel).map Prod.fst = some fn ∧
        appWriter.rename emptyFS ⟨2024, 3, 6, 0, 0, 5, 0⟩ fuel = some (z', fs') ∧
        fileCheck (some appWriter) emptyFS ⟨2024, 3, 6, 0, 0, 5, 0⟩ ⟨2024, 3, 6, 0, 0, 5, 0⟩ fuel
          = some (some z', fs')) ∧
      z'.timestamp = ⟨2024, 3, 6, 0, 0, 5, 0⟩ ∧ z'.logFilePath = fn ∧
      (z'.logFile ≠ none →
        stat fs' fn = some (Node.file []) ∧
        (z'.isMustRename fs' ⟨2024, 3, 6, 0, 0, 5, 0⟩).1 = false ∧
        ∀ fuel, (fileCheck (some z') fs' ⟨2024, 3, 6, 0, 0, 5, 0⟩
          ⟨2024, 3, 6, 0, 0, 5, 0⟩ fuel).map Prod.fst = some (some z')) :=
  ⟨by decide,
   fileCheck_single_rotation appWriter emptyFS ⟨2024, 3, 6, 0, 0, 5, 0⟩ 0 (by decide) (by decide)⟩

/-! ## The string `newLogFile` returns -/

/-- C6: for directory `logs`, base name `app` and 5 March 2024, with no file at
the primary location under either spelling, `newLogFile` returns
`logs/2024-03-05//app.log`: two separators stand between the date and the base
name, so the result is not the string `logs/2024-03-05/app.log`. -/
theorem newLogFile_not_single_separator :
    isFileExist emptyFS ("logs" ++ "/" ++ "2024-03-05" ++ "/" ++ "app" ++ ".log") = false ∧
    isFileExist emptyFS "logs/2024-03-05//app.log" = false ∧
    (appWriter.newLogFile emptyFS 0).map Prod.fst = some "logs/2024-03-05//app.log" ∧
    (appWriter.newLogFile emptyFS 0).map Prod.fst
      ≠ some ("logs" ++ "/" ++ "2024-03-05" ++ "/" ++ "app" ++ ".log") := by
  decide

/-- The exact string `newLogFile` returns. For a timestamp with year in 0..9999,
month at most 12 and day at most 31, the date is written with 4, 2 and 2 decimal
digits; when no regular file is at the primary location `newLogFile` returns
`d ++ "/" ++ YYYY-MM-DD ++ "//" ++ b ++ ".log"` (one separator after the
directory, two after the date); when one is there and the name with suffix `_N`
is free, it returns that same string with `_n` put before `.log` for some
`1 ≤ n ≤ N`. -/
theorem newLogFile_string (z : ZxyLog) (fs : FS)
    (hy0 : 0 ≤ z.timestamp.year) (hy : z.timestamp.year ≤ 9999)
    (hm : z.timestamp.month ≤ 12) (hd : z.timestamp.day ≤ 31) :
    (fmtPad 4 z.timestamp.year).length = 4 ∧
    (fmtPad 2 z.timestamp.month).length = 2 ∧
    (fmtPad 2 z.timestamp.day).length = 2 ∧
    (∀ c ∈ (fmtPad 4 z.timestamp.year ++ fmtPad 2 z.timestamp.month
              ++ fmtPad 2 z.timestamp.day).toList, c.isDigit = true) ∧
    (isFileExist fs
        (z.logDir ++ "/" ++ dateString z.timestamp ++ "//" ++ z.logFilename ++ ".log") = false →
      ∀ fuel, (z.newLogFile fs fuel).map Prod.fst =
        some (z.logDir ++ "/" ++ dateString z.timestamp ++ "//" ++ z.logFilename ++ ".log")) ∧
    (isFileExist fs
        (z.logDir ++ "/" ++ dateString z.timestamp ++ "//" ++ z.logFilename ++ ".log") = true →
      ∀ N, 1 ≤ N →
        isFileExist fs (z.logDir ++ "/" ++ dateString z.timestamp ++ "//" ++ z.logFilename
          ++ "_" ++ toString N ++ ".log") = false →
        ∃ n, 1 ≤ n ∧ n ≤ N ∧ ∀ fuel, N ≤ fuel →
          (z.newLogFile fs fuel).map Prod.fst =
            some (z.logDir ++ "/" ++ dateString z.timestamp ++ "//" ++ z.logFilename
              ++ "_" ++ toString n ++ ".log")) := by
  refine ⟨?_, ?_, ?_, ?_, ?_, ?_⟩
  · exact fmtPad_length 4 _ (by decide) hy0 (by omega)
  · exact fmtPad_length 2 _ (by decide) (by omega) (by norm_num; omega)
  · exact fmtPad_length 2 _ (by decide) (by omega) (by norm_num; omega)
  · intro c hc
    simp only [String.toList, String.data_append, List.mem_append] at hc
    rcases hc with (hc | hc) | hc
    · exact fmtPad_isDigit 4 _ hy0 c hc
    · exact fmtPad_isDigit 2 _ (by omega) c hc
    · exact fmtPad_isDigit 2 _ (by omega) c hc
  · intro h fuel
    rw [← candidate_zero_eq] at h ⊢
    obtain ⟨k, hk, hrun, _, _⟩ := newLogFile_spec z fs 0 h
    obtain rfl : k = 0 := by omega
    have h0b : isFileExist (MkdirAll fs z.dateDir) (z.baseFile ++ ".log") = false := by
      rw [isFileExist_MkdirAll]
      exact h
    simp [ZxyLog.newLogFile, h0b, candidate]
  · intro h N hN hfree
    obtain ⟨M, rfl⟩ : ∃ M, N = M + 1 := ⟨N - 1, by omega⟩
    rw [← candidate_zero_eq] at h
    rw [← candidate_succ_eq] at hfree
    obtain ⟨k, hk, hrun, _, hfr⟩ := newLogFile_spec z fs (M + 1) hfree
    have hk1 : 1 ≤ k := by
      rcases Nat.eq_zero_or_pos k with e | e
      · rw [e, h] at hfr
        exact absurd hfr (by simp)
      · exact e
    obtain ⟨j, rfl⟩ : ∃ j, k = j + 1 := ⟨k - 1, by omega⟩
    refine ⟨j + 1, hk1, hk, ?_⟩
    intro fuel hfuel
    rw [hrun fuel hfuel, ← candidate_succ_eq]
    rfl

/-- The returned string at a concrete tree: with `app.log` and `app_1.log`
present the name is `logs/2024-03-05//app_2.log`. -/
theorem newLogFile_string_witness :
    (0 : Int) ≤ appWriter.timestamp.year ∧ appWriter.timestamp.year ≤ 9999 ∧
    appWriter.timestamp.month ≤ 12 ∧ appWriter.timestamp.day ≤ 31 ∧
    (∃ n, 1 ≤ n ∧ n ≤ 2 ∧ ∀ fuel, 2 ≤ fuel →
      (appWriter.newLogFile twoLogsFS fuel).map Prod.fst =
        some (appWriter.logDir ++ "/" ++ dateString appWriter.timestamp ++ "//"
          ++ appWriter.logFilename ++ "_" ++ toString n ++ ".log")) ∧
    (∀ fuel, (appWriter.newLogFile emptyFS fuel).map Prod.fst =
        some (appWriter.logDir ++ "/" ++ dateString appWriter.timestamp ++ "//"
          ++ appWriter.logFilename ++ ".log")) :=
  ⟨by decide, by decide, by decide, by decide,
   (newLogFile_string appWriter twoLogsFS (by decide) (by decide) (by decide)
      (by decide)).2.2.2.2.2 (by decide) 2 (by decide) (by decide),
   (newLogFile_string appWriter emptyFS (by decide) (by decide) (by decide)
      (by decide)).2.2.2.2.1 (by decide)⟩

/-! ## The directory stored by `NewZxyLog` -/

/-- C7: `NewZxyLog` called with directory `logs//` succeeds and stores `logs/`,
which still ends with a separator: only one of the two is cut off. -/
theorem NewZxyLog_keeps_second_separator :
    (NewZxyLog "logs//" "app" march5 emptyFS Globals.initial 0).get?.map (fun r => r.1.logDir)
      = some "logs/" ∧
    endsWithSeparator "logs/" = true := by
  decide

/-- What `NewZxyLog` stores: whenever it returns a writer, the directory passed in
was not empty and the stored directory is the input when that has no trailing
separator and the input without its last character otherwise; the stored
directory ends with a separator exactly when the input ends with two. -/
theorem NewZxyLog_logDir (fileDir fileName : String) (now : Time) (fs : FS) (g : Globals)
    (fuel : Nat) (z : ZxyLog)
    (hdone : (NewZxyLog fileDir fileName now fs g fuel).get?.map (fun r => r.1) = some z) :
    fileDir ≠ "" ∧
    (endsWithSeparator fileDir = false → z.logDir = fileDir) ∧
    (endsWithSeparator fileDir = true → z.logDir = dropLastChar fileDir) ∧
    (endsWithSeparator z.logDir = true ↔
      (endsWithSeparator fileDir = true ∧ endsWithSeparator (dropLastChar fileDir) = true)) := by
  have hfix := NewZxyLog_done_fixDir fileDir fileName now fs g fuel z hdone
  have hends : ∀ s : String, endsWithSeparator s =
      (decide (s.data.getLast? = some '/') || decide (s.data.getLast? = some '\\')) := by
    intro s
    rfl
  have hfix2 : (match fileDir.data.getLast? with
      | none => none
      | some c => if c = '\\' || c = '/' then some (String.mk fileDir.data.dropLast)
                  else some fileDir) = some z.logDir := hfix
  cases hlast : fileDir.data.getLast? with
  | none =>
    rw [hlast] at hfix2
    exact absurd hfix2 (by simp)
  | some c =>
    rw [hlast] at hfix2
    simp only at hfix2
    have hne : fileDir ≠ "" := by
      intro e
      rw [e] at hlast
      simp at hlast
    by_cases hc : c = '\\' ∨ c = '/'
    · have hsep : endsWithSeparator fileDir = true := by
        rw [hends, hlast]
        rcases hc with e | e <;> simp [e]
      have hz : z.logDir = dropLastChar fileDir := by
        have hb : (decide (c = '\\') || decide (c = '/')) = true := by
          rcases hc with e | e <;> simp [e]
        rw [if_pos hb] at hfix2
        exact (Option.some.inj hfix2).symm
      refine ⟨hne, ?_, fun _ => hz, ?_⟩
      · intro h
        rw [hsep] at h
        exact absurd h (by simp)
      · rw [hz]
        simp [hsep]
    · have hsep : endsWithSeparator fileDir = false := by
        rw [hends, hlast]
        push_neg at hc
        simp [hc.1, hc.2]
      have hz : z.logDir = fileDir := by
        have hb : ¬ (decide (c = '\\') || decide (c = '/')) = true := by
          push_neg at hc
          simp [hc.1, hc.2]
        rw [if_neg hb] at hfix2
        exact (Option.some.inj hfix2).symm
      refine ⟨hne, fun _ => hz, ?_, ?_⟩
      · intro h
        rw [hsep] at h
        exact absurd h (by simp)
      · rw [hz]
        simp [hsep]

/-- The stored directory at a concrete call: `logs/` is stored as `logs`. -/
theorem NewZxyLog_logDir_witness :
    (NewZxyLog "logs/" "app" march5 emptyFS Globals.initial 0).get?.map (fun r => r.1)
      = some appWriter ∧
    appWriter.logDir = dropLastChar "logs/" ∧
    endsWithSeparator appWriter.logDir = false :=
  ⟨by decide,
   (NewZxyLog_logDir "logs/" "app" march5 emptyFS Globals.initial 0 appWriter (by decide)).2.2.1
     (by decide),
   by decide⟩

end Zxylog
